import Mathlib

/-!
Verification of the firefly batch assembly / dispatch engine specification
against the repository sources.

Modelling conventions:
* The TypeScript `BatchProcessor` (src/kat/src/lib/batch-processor.ts) is
  embedded as pure functions over explicit state, with the observable side
  effects (database upserts, promise resolution/rejection, dispatches,
  timers, sleeps) recorded in an event trace.  `Date.now()` values, fresh
  uuids and the outcomes of the fallible external calls are supplied by
  per-iteration oracles, and the `while` loops take the list of those
  oracles as fuel: when the list runs out the loop is still running and the
  model simply stops recording events.
* Machine numbers (timestamps, millisecond delays, counters) are `Nat`,
  with `Int` where the JS arithmetic can go negative.
* Go code (src/internal/tokens/fftokens/fftokens.go, src/unnamed/part_001)
  is embedded directly; fallible calls return `Option`/`Except`, and the
  values returned by injected callbacks are parameters.
-/

/-- Configuration block of the batch processor
(`IBatchProcessorConfig`, batch-processor.ts lines 26-34).  All times are in
milliseconds.  (The source spells `batchTimeoutArrivallMS` with two l's.) -/
structure BPConfig where
  addTimeoutMS : Nat
  batchTimeoutArrivallMS : Nat
  batchTimeoutOverallMS : Nat
  batchMaxRecords : Nat
  retryInitialDelayMS : Nat
  retryMaxDelayMS : Nat
  retryMultiplier : Nat
  deriving Repr, DecidableEq

/-- The persisted batch object (`IDBBatch` as used by batch-processor.ts):
`batchID` (a uuid, modelled as `Nat`), `created`, the optional `completed`
stamp, and the ordered `records` (each record modelled by an opaque `Nat`
identifier). -/
structure DBBatch where
  author : String
  btype : String
  batchID : Nat
  created : Nat
  completed : Option Nat
  records : List Nat
  deriving Repr, DecidableEq

/-- A queued `add` caller (`BatchAssemblyTask`, lines 36-41).  The
resolve/reject continuations are modelled by trace events keyed by the
task's record. -/
structure BatchAssemblyTask where
  timestamp : Nat
  record : Nat
  deriving Repr, DecidableEq

/-- Observable events of the assembler / dispatch code paths.
`upsertBatch` is a successful `database.upsertBatch`; `upsertFail` is an
attempt that threw; `resolveTask`/`rejectTimeout`/`rejectError` are the
resolutions of `add` promises (`rejectError` records the batch whose
persistence attempt failed and the error it failed with); `dispatch` marks
`dispatchBatch` handing a filled batch to `processBatch`; `setTimer` is the
dispatch-timer reset. -/
inductive BPEvent where
  | upsertBatch (b : DBBatch)
  | upsertFail (b : DBBatch) (err : String)
  | dispatch (b : DBBatch)
  | setTimer (ms : Int)
  | resolveTask (record : Nat) (batchID : Nat)
  | rejectTimeout (record : Nat) (inFlightTime : Nat)
  | rejectError (record : Nat) (attempted : DBBatch) (err : String)
  deriving Repr, DecidableEq

/-- `rejectAnyStale` (lines 126-139): every queued task whose in-flight time
strictly exceeds `addTimeoutMS` is rejected with a timeout error; the
survivors stay in the queue, in order. -/
def rejectAnyStale (cfg : BPConfig) (now : Nat) :
    List BatchAssemblyTask → List BatchAssemblyTask × List BPEvent
  | [] => ([], [])
  | a :: rest =>
    let keep := (rejectAnyStale cfg now rest).1
    let evts := (rejectAnyStale cfg now rest).2
    let inFlightTime := now - a.timestamp
    if cfg.addTimeoutMS < inFlightTime then
      (keep, BPEvent.rejectTimeout a.record inFlightTime :: evts)
    else
      (a :: keep, evts)

/-- `newBatch` (lines 110-120): fresh uuid (supplied by the oracle as
`freshID`), `created := Date.now()`, `completed := null`, no records. -/
def newBatch (author btype : String) (freshID now : Nat) : DBBatch :=
  { author := author, btype := btype, batchID := freshID, created := now,
    completed := none, records := [] }

/-- Oracle for one pass of the assembler while-loop: the wall clock reading
for the iteration, the fresh uuid `newBatch` would draw, and the outcome of
`database.upsertBatch` (`none` = success, `some e` = the call threw `e`). -/
structure IterEnv where
  now : Nat
  freshID : Nat
  upsertErr : Option String
  deriving Repr, DecidableEq

/-- Helper: the `resolve` events for the tasks chosen in one iteration
(line 201). -/
def resolveEvents (chosen : List BatchAssemblyTask) (batchID : Nat) : List BPEvent :=
  chosen.map fun a => BPEvent.resolveTask a.record batchID

/-- Helper: the `reject` events of the catch block (line 205). -/
def rejectEvents (chosen : List BatchAssemblyTask) (attempted : DBBatch)
    (err : String) : List BPEvent :=
  chosen.map fun a => BPEvent.rejectError a.record attempted err

/-- One pass of the assembler while-loop body (`assembler`, lines 141-209):
reject stale tasks (emitting their timeout rejections); if none remain the
loop exits; otherwise ensure a current batch exists (`newBatch` if the slot
is empty), take up to `batchMaxRecords - records.length` tasks off the front
of the queue, append their records, and attempt the upsert.  On success: if
the batch is now full, dispatch it (the slot is cleared with no intervening
suspension), else reset the dispatch timer to
`min(batchTimeoutArrivallMS, created + batchTimeoutOverallMS - now)`; then
resolve the chosen tasks with the batchID.  On an upsert throw (the only
fallible call in the try block: `processBatch` never rejects, so the awaited
`dispatchBatch` cannot), the catch block rejects exactly the tasks chosen in
this iteration and the loop continues, the in-memory batch keeping the
already-pushed records.  Returns (events of the iteration, next assembly
slot, remaining queue, whether the while-condition still holds). -/
def assemblerIter (cfg : BPConfig) (author btype : String) (env : IterEnv)
    (tasks : List BatchAssemblyTask) (ab : Option DBBatch) :
    List BPEvent × Option DBBatch × List BatchAssemblyTask × Bool :=
  let fresh := (rejectAnyStale cfg env.now tasks).1
  let staleEvts := (rejectAnyStale cfg env.now tasks).2
  if fresh = [] then (staleEvts, ab, [], false)
  else
    let batch := ab.getD (newBatch author btype env.freshID env.now)
    let capacity := cfg.batchMaxRecords - batch.records.length
    let chosen := fresh.take capacity
    let rest := fresh.drop capacity
    let batch' := { batch with records := batch.records ++ chosen.map (·.record) }
    match env.upsertErr with
    | some e =>
      (staleEvts ++ BPEvent.upsertFail batch' e :: rejectEvents chosen batch' e,
       some batch', rest, true)
    | none =>
      if cfg.batchMaxRecords ≤ batch'.records.length then
        (staleEvts ++ BPEvent.upsertBatch batch' :: BPEvent.dispatch batch' ::
          resolveEvents chosen batch'.batchID, none, rest, true)
      else
        let timer : Int := min (cfg.batchTimeoutArrivallMS : Int)
          ((batch.created : Int) + (cfg.batchTimeoutOverallMS : Int) - (env.now : Int))
        (staleEvts ++ BPEvent.upsertBatch batch' :: BPEvent.setTimer timer ::
          resolveEvents chosen batch'.batchID, some batch', rest, true)

/-- The assembler while-loop: iterate `assemblerIter` until the queue is
empty (or fuel runs out - the loop is then still running and the model stops
recording).  Returns (trace, final assembly slot, tasks still queued when
fuel ran out). -/
def assemblerLoop (cfg : BPConfig) (author btype : String) :
    List IterEnv → List BatchAssemblyTask → Option DBBatch →
    List BPEvent × Option DBBatch × List BatchAssemblyTask
  | [], tasks, ab => ([], ab, tasks)
  | env :: envs, tasks, ab =>
    let it := assemblerIter cfg author btype env tasks ab
    if it.2.2.2 then
      let t := assemblerLoop cfg author btype envs it.2.2.1 it.2.1
      (it.1 ++ t.1, t.2.1, t.2.2)
    else
      (it.1, it.2.1, it.2.2.1)

/-- The (record, batchID) pairs durably covered by a successful upsert of a
batch. -/
def persistedPairs (b : DBBatch) : List (Nat × Nat) :=
  b.records.map fun r => (r, b.batchID)

/-- `okTraceB seen T` holds when every `resolveTask record batchID` event in
`T` is preceded (within `T`, or by `seen`) by a successful `upsertBatch` of a
batch with that `batchID` containing that record.  `okTraceB [] T` is the
"resolve only after persistence" property of `add`. -/
def okTraceB : List (Nat × Nat) → List BPEvent → Bool
  | _, [] => true
  | seen, BPEvent.resolveTask r b :: rest => decide ((r, b) ∈ seen) && okTraceB seen rest
  | seen, BPEvent.upsertBatch β :: rest => okTraceB (seen ++ persistedPairs β) rest
  | seen, BPEvent.upsertFail _ _ :: rest => okTraceB seen rest
  | seen, BPEvent.dispatch _ :: rest => okTraceB seen rest
  | seen, BPEvent.setTimer _ :: rest => okTraceB seen rest
  | seen, BPEvent.rejectTimeout _ _ :: rest => okTraceB seen rest
  | seen, BPEvent.rejectError _ _ _ :: rest => okTraceB seen rest

/-- The persisted (record, batchID) pairs after the successful upserts of a
trace have been applied to `seen`. -/
def seenAfter (seen : List (Nat × Nat)) : List BPEvent → List (Nat × Nat)
  | [] => seen
  | BPEvent.upsertBatch β :: rest => seenAfter (seen ++ persistedPairs β) rest
  | _ :: rest => seenAfter seen rest

/-- Events that neither resolve a task nor record a successful upsert. -/
def isNeutralEvt : BPEvent → Bool
  | BPEvent.resolveTask _ _ => false
  | BPEvent.upsertBatch _ => false
  | _ => true

/-- Events that record a successful upsert. -/
def isUpsertEvt : BPEvent → Bool
  | BPEvent.upsertBatch _ => true
  | _ => false

/-- The mutable per-processor fields touched by `dispatchBatch`
(batch-processor.ts lines 57-61, as far as the dispatch path reads them). -/
structure BPState where
  assemblyBatch : Option DBBatch
  dispatchTimeout : Option Nat
  batchInFlight : Option DBBatch
  deriving Repr, DecidableEq

/-- `dispatchBatch` (lines 211-222): after awaiting any in-flight dispatch it
clears the dispatch timer, moves the current batch out of the assembly slot
and, if the slot was already empty (a timer and the assembler racing), simply
returns; otherwise it stores the `processBatch` promise in `batchInFlight`.
The second component is the batch whose processing was started, if any. -/
def dispatchBatchStep (s : BPState) : BPState × Option DBBatch :=
  match s.assemblyBatch with
  | none => ({ s with dispatchTimeout := none }, none)
  | some b =>
    ({ assemblyBatch := none, dispatchTimeout := none, batchInFlight := some b }, some b)

/-- Oracle for one attempt of the `processBatch` retry loop: the wall clock
stamped into `completed`, the outcome of the batch callback and the outcome of
the final `database.upsertBatch` (`none` = success). -/
structure PBAttemptEnv where
  now : Nat
  callbackErr : Option String
  upsertErr : Option String
  deriving Repr, DecidableEq

/-- An attempt succeeds when neither the callback nor the final upsert
throws. -/
def PBAttemptEnv.ok (e : PBAttemptEnv) : Bool :=
  e.callbackErr.isNone && e.upsertErr.isNone

/-- Observable events of `processBatch`: the callback invocation (with the
batch as stamped for that attempt), the final upsert attempt, and the
retry-delay sleeps. -/
inductive PBEvent where
  | callbackAttempt (b : DBBatch)
  | upsertAttempt (b : DBBatch)
  | sleep (ms : Nat)
  deriving Repr, DecidableEq

/-- The retry-delay computation of the catch block (lines 244-246):
`retryDelay = retryInitialDelayMS`, multiplied by `retryMultiplier` once per
completed attempt beyond the first, then capped at `retryMaxDelayMS`. -/
def retryDelayCode (cfg : BPConfig) (attempt : Nat) : Nat :=
  let d := (List.range (attempt - 1)).foldl (fun d _ => d * cfg.retryMultiplier)
    cfg.retryInitialDelayMS
  min d cfg.retryMaxDelayMS

/-- `processBatch` (lines 224-261): for attempt = 1, 2, ...: stamp
`completed := Date.now()`; invoke the batch callback; upsert the batch; on
success exit; on any error sleep the capped exponential retry delay and try
again, indefinitely.  Fuel is the list of attempt oracles; exhausting it
means the loop is still retrying (result `none`).  (In-place updates of the
batch by the callback are not modelled; the claims do not touch them.) -/
def processBatchLoop (cfg : BPConfig) :
    List PBAttemptEnv → Nat → DBBatch → List PBEvent × Option DBBatch
  | [], _, _ => ([], none)
  | env :: envs, attempt, b =>
    let attempt' := attempt + 1
    let b' := { b with completed := some env.now }
    match env.callbackErr with
    | some _ =>
      let d := retryDelayCode cfg attempt'
      let t := processBatchLoop cfg envs attempt' b'
      (PBEvent.callbackAttempt b' :: PBEvent.sleep d :: t.1, t.2)
    | none =>
      match env.upsertErr with
      | some _ =>
        let d := retryDelayCode cfg attempt'
        let t := processBatchLoop cfg envs attempt' b'
        (PBEvent.callbackAttempt b' :: PBEvent.upsertAttempt b' :: PBEvent.sleep d :: t.1,
         t.2)
      | none =>
        ([PBEvent.callbackAttempt b', PBEvent.upsertAttempt b'], some b')

/-- The `completed` stamps carried by the callback invocations of a
`processBatch` trace, in order. -/
def callbackStamps (T : List PBEvent) : List (Option Nat) :=
  T.filterMap fun e => match e with
    | PBEvent.callbackAttempt β => some β.completed
    | _ => none

/-- The retry-delay sleeps of a `processBatch` trace, in order. -/
def sleepsOf (T : List PBEvent) : List Nat :=
  T.filterMap fun e => match e with
    | PBEvent.sleep d => some d
    | _ => none

/-- Number of attempts the retry loop makes on the given oracle list: it
runs through the failures until the first attempt whose callback and upsert
both succeed (inclusive), or through the whole list. -/
def numAttempts : List PBAttemptEnv → Nat
  | [] => 0
  | e :: es => if e.ok then 1 else numAttempts es + 1

/-- Number of failed attempts before the first success (all of them, if no
attempt in the list succeeds). -/
def numFails : List PBAttemptEnv → Nat
  | [] => 0
  | e :: es => if e.ok then 0 else numFails es + 1

/-- The fields of the websocket event payload (`fftypes.JSONObject`) that
`handleReceipt` and `handleTokenPoolCreate` read
(src/internal/tokens/fftokens/fftokens.go lines 99-147).  Go's
`JSONObject.GetString` of a missing key returns `""` and `GetBool` returns
`false`, so a missing field is modelled by the default value.
`transactionHash` stands for `GetObject "transaction"` followed by
`GetString "transactionHash"` (a missing object yields the empty string). -/
structure EventJSON where
  id : String
  success : Bool
  message : String
  ttype : String
  poolId : String
  trackingId : String
  operator_ : String
  transactionHash : String
  deriving Repr, DecidableEq

/-- A decoded `wsEvent` envelope (fftokens.go lines 42-46). -/
structure WsEvent where
  event : String
  id : String
  data : EventJSON
  deriving Repr, DecidableEq

/-- Result of one message handler: the error it returned and whether it
invoked its registered callback. -/
structure HandlerResult where
  err : Option String
  callbackInvoked : Bool
  deriving Repr, DecidableEq

/-- `handleReceipt` (fftokens.go lines 99-120).  `parseUUID` abstracts
`fftypes.ParseUUID` (its source is not under src/; the behaviour proved here
holds for every parser); `opUpdateErr` is the value the registered
`TokensOpUpdate` callback returns when invoked. -/
def handleReceipt (parseUUID : String → Option Nat) (opUpdateErr : Option String)
    (data : EventJSON) : HandlerResult :=
  if data.id = "" then { err := none, callbackInvoked := false }
  else
    match parseUUID data.id with
    | none => { err := none, callbackInvoked := false }
    | some _ => { err := opUpdateErr, callbackInvoked := true }

/-- `handleTokenPoolCreate` (fftokens.go lines 122-147): if any of the
required fields is missing the event is logged and swallowed (nil error, no
callback); if `trackingId` does not parse as a uuid, likewise; otherwise the
`TokenPoolCreated` callback is invoked and its error returned. -/
def handleTokenPoolCreate (parseUUID : String → Option Nat)
    (poolCreatedErr : Option String) (data : EventJSON) : HandlerResult :=
  if data.ttype = "" ∨ data.poolId = "" ∨ data.trackingId = "" ∨
      data.operator_ = "" ∨ data.transactionHash = "" then
    { err := none, callbackInvoked := false }
  else
    match parseUUID data.trackingId with
    | none => { err := none, callbackInvoked := false }
    | some _ => { err := poolCreatedErr, callbackInvoked := true }

/-- Whether the event loop keeps running after a message. -/
inductive LoopOutcome where
  | continueLoop
  | exitLoop
  deriving Repr, DecidableEq

/-- Outcome of one pass of the event loop body: whether an ack was sent
back, whether the loop continues, and whether a registered callback was
invoked. -/
structure StepResult where
  ackSent : Bool
  outcome : LoopOutcome
  callbackInvoked : Bool
  deriving Repr, DecidableEq

/-- One pass of `eventLoop`'s message handling (fftokens.go lines 164-194):
dispatch on `msg.Event` (unknown events are logged and swallowed); then, when
the handler returned nil, the event is not a receipt and the envelope id is
non-empty, send an ack (`ackSendErr` models `wsconn.Send`); any error still
pending at the bottom exits the loop. -/
def eventLoopStep (parseUUID : String → Option Nat)
    (opUpdateErr poolCreatedErr ackSendErr : Option String)
    (msg : WsEvent) : StepResult :=
  let hr : HandlerResult :=
    if msg.event = "receipt" then handleReceipt parseUUID opUpdateErr msg.data
    else if msg.event = "token-pool" then
      handleTokenPoolCreate parseUUID poolCreatedErr msg.data
    else { err := none, callbackInvoked := false }
  if hr.err = none ∧ msg.event ≠ "receipt" ∧ msg.id ≠ "" then
    { ackSent := true,
      outcome := if ackSendErr = none then LoopOutcome.continueLoop
        else LoopOutcome.exitLoop,
      callbackInvoked := hr.callbackInvoked }
  else
    { ackSent := false,
      outcome := if hr.err = none then LoopOutcome.continueLoop
        else LoopOutcome.exitLoop,
      callbackInvoked := hr.callbackInvoked }

/-- uuids of the Go model, opaque. -/
abbrev FFUUID := Nat

/-- A data reference held by a message (`msg.Data[i]`,
src/unnamed/part_001). -/
structure DataRefGo where
  id : FFUUID
  deriving Repr, DecidableEq

/-- The message-header fields `NewMessageDataOp` reads
(src/unnamed/part_001). -/
structure MessageHeaderGo where
  id : FFUUID
  ns : String
  deriving Repr, DecidableEq

/-- The message fields `NewMessageDataOp` reads (src/unnamed/part_001). -/
structure MessageGo where
  header : MessageHeaderGo
  data : List DataRefGo
  deriving Repr, DecidableEq

/-- `fftypes.Operation` (src/unnamed/part_001 lines 71-84).  `OpType` and
`OpStatus` are string types in the source and are modelled as `String`. -/
structure OperationGo where
  id : FFUUID
  ns : String
  message : Option FFUUID
  data : Option FFUUID
  optype : String
  recipient : String
  status : String
  errorMsg : String
  plugin : String
  backendID : String
  created : Nat
  updated : Option Nat
  deriving Repr, DecidableEq

/-- `NewMessageDataOp` (src/unnamed/part_001 lines 56-69).  The source
indexes `msg.Data[dataIdx]` with no bounds check; a Go slice index out of
range panics, which is modelled by `none`.  `freshID` models `NewUUID()`,
`now` models `Now()`, `pluginName` models `plugin.Name()`. -/
def NewMessageDataOp (pluginName : String) (backendID : String) (msg : MessageGo)
    (dataIdx : Nat) (opType opStatus : String) (recipient : String)
    (freshID : FFUUID) (now : Nat) : Option OperationGo :=
  (msg.data.get? dataIdx).map fun d =>
    { id := freshID, plugin := pluginName, backendID := backendID,
      ns := msg.header.ns, message := some msg.header.id, data := some d.id,
      optype := opType, recipient := recipient, status := opStatus,
      errorMsg := "", created := now, updated := none }

/-- A blob reference of a `Data` value; `hash` is the hex digest, `none`
when absent. -/
structure BlobRefGo where
  hash : Option String
  deriving Repr, DecidableEq

/-- The fields of `fftypes.Data` that content hashing reads. `value` is the
raw JSON of the `value` field: `none` when absent, `some "null"` when the
JSON literal null (cf. TestHashDataNull in src/unnamed/part_001). -/
structure DataGo where
  value : Option String
  blob : Option BlobRefGo
  deriving Repr, DecidableEq

/-- Modelled from the spec: `Data.CalcHash` lives in pkg/fftypes, which is
not under src/; modelled from spec section 6 ("Content hashing": the hash of
canonical JSON, with `null` contributing no bytes) and pinned by the
expectations of TestSealNoData, TestSealValueOnly, TestSealBlobOnly,
TestSealBlobAndHashOnly and TestHashDataNull (src/unnamed/part_001):
a null/absent value with no blob hash is an error (FF10199); a null/absent
value with a blob hash yields the blob hash unchanged; a value alone yields
the digest of the value; value and blob together yield the digest of the
concatenated hex digests.  `sha` abstracts hex-encoded SHA-256. -/
def CalcHash (sha : String → String) (d : DataGo) : Except String String :=
  let blobHash := d.blob.bind BlobRefGo.hash
  if d.value = none ∨ d.value = some "null" then
    match blobHash with
    | none => Except.error "FF10199"
    | some h => Except.ok h
  else
    match d.value, blobHash with
    | some v, none => Except.ok (sha v)
    | some v, some bh => Except.ok (sha (sha v ++ bh))
    | none, _ => Except.error "FF10199"

/-- The batch fields the broadcast submit path reads. -/
structure BatchGo where
  author : String
  payloadRef : String
  deriving Repr, DecidableEq

/-- The store/plugin calls observable in the broadcast submit path. -/
inductive BMCall where
  | updateBatch
  | upsertOperation (optype : String) (plugin : String) (backendID : String)
  | submitPinnedBatch (author : String)
  deriving Repr, DecidableEq

/-- Outcomes of the external calls made by the broadcast submit path
(`none` = success). -/
structure BMEnv where
  publicstorageName : String
  updateBatchErr : Option String
  upsertOperationErr : Option String
  submitPinnedBatchErr : Option String
  deriving Repr, DecidableEq

/-- `broadcastManager.submitTXAndUpdateDB` as pinned down by its unit tests
(the manager source is not under src/; its tests are).
TestDispatchBatchSubmitBroadcastFail, TestSubmitTXAndUpdateDBAddOp1Fail and
TestSubmitTXAndUpdateDBSucceed (src/internal/broadcast/manager_test.go)
exercise the sequence UpdateBatch, then UpsertOperation of a
PublicStorageBatchBroadcast operation carrying the publicstorage plugin name
and the batch's payloadRef as backendID, then SubmitPinnedBatch - each
failure propagating, with no inspection of `batch.Author` anywhere on the
path (the foreign-author batch of TestDispatchBatchSubmitBroadcastFail still
reaches SubmitPinnedBatch and its error surfaces). -/
def submitTXAndUpdateDB (env : BMEnv) (batch : BatchGo) : List BMCall × Option String :=
  match env.updateBatchErr with
  | some e => ([BMCall.updateBatch], some e)
  | none =>
    match env.upsertOperationErr with
    | some e =>
      ([BMCall.updateBatch,
        BMCall.upsertOperation "PublicStorageBatchBroadcast" env.publicstorageName
          batch.payloadRef], some e)
    | none =>
      ([BMCall.updateBatch,
        BMCall.upsertOperation "PublicStorageBatchBroadcast" env.publicstorageName
          batch.payloadRef,
        BMCall.submitPinnedBatch batch.author], env.submitPinnedBatchErr)

/-- Modelled from the spec: the behaviour section 4.3 claims for the
broadcast dispatcher - "A batch whose author does not match this node's
identity must not be signed here; the dispatcher inspects batch.author and,
if foreign, returns success without issuing a pin."  Stated for comparison
with `submitTXAndUpdateDB`, whose behaviour the tests fix. -/
def submitTXAndUpdateDBSpec (nodeIdentity : String) (env : BMEnv)
    (batch : BatchGo) : List BMCall × Option String :=
  if batch.author ≠ nodeIdentity then ([], none)
  else submitTXAndUpdateDB env batch

/-- A recipient node of a private batch (only its peer id matters here). -/
structure NodeGo where
  peer : String
  deriving Repr, DecidableEq

/-- A data entry of a private batch: its id and the optional blob-reference
hash. -/
structure PMDataGo where
  id : FFUUID
  blobHash : Option String
  deriving Repr, DecidableEq

/-- The plugin/store calls observable in the private dispatch path. -/
inductive PMCall where
  | getBlobMatchingHash (hash : String)
  | transferBlob (peer : String) (payloadRef : String)
  | upsertOp (optype : String) (tracking : String)
  | sendMessage (peer : String)
  | submitPinnedBatch
  deriving Repr, DecidableEq

/-- Calls of the blob phase: GetBlobMatchingHash, TransferBLOB and the
DataExchangeBlobSend operation upserts. -/
def isBlobPhase : PMCall → Bool
  | PMCall.getBlobMatchingHash _ => true
  | PMCall.transferBlob _ _ => true
  | PMCall.upsertOp t _ => t = "DataExchangeBlobSend"
  | _ => false

/-- Calls of the envelope phase: SendMessage and the DataExchangeBatchSend
operation upserts. -/
def isSendPhase : PMCall → Bool
  | PMCall.sendMessage _ => true
  | PMCall.upsertOp t _ => t = "DataExchangeBatchSend"
  | _ => false

/-- Modelled from the spec: the blob-transfer phase of the private
dispatcher (section 4.4; the privatemessaging sources are not under src/,
only src/internal/privatemessaging/privatemessaging_test.go is).  For each
data entry carrying a blob reference: resolve the blob's local storage path
via GetBlobMatchingHash (failure FF10239 if absent, per
TestTransferBlobsNotFound), then for every recipient call TransferBLOB and
upsert one DataExchangeBlobSend Operation whose backendID is the
transfer's tracking id.  `blobLookup` models GetBlobMatchingHash,
`tracking p ref` the tracking id TransferBLOB returns for peer `p`. -/
def blobPhaseCalls (blobLookup : String → Option String)
    (tracking : String → String → String) (nodes : List NodeGo) :
    List PMDataGo → Except String (List PMCall)
  | [] => Except.ok []
  | d :: ds =>
    match d.blobHash with
    | none => blobPhaseCalls blobLookup tracking nodes ds
    | some h =>
      match blobLookup h with
      | none => Except.error "FF10239"
      | some payloadRef =>
        match blobPhaseCalls blobLookup tracking nodes ds with
        | Except.error e => Except.error e
        | Except.ok restCalls =>
          Except.ok ((PMCall.getBlobMatchingHash h ::
            nodes.flatMap (fun n => [PMCall.transferBlob n.peer payloadRef,
              PMCall.upsertOp "DataExchangeBlobSend" (tracking n.peer payloadRef)]))
            ++ restCalls)

/-- Modelled from the spec: the envelope phase (section 4.4) - for each
recipient, SendMessage then upsert one DataExchangeBatchSend Operation with
the send's tracking id (`tracking2`). -/
def sendPhaseCalls (tracking2 : String → String) (nodes : List NodeGo) : List PMCall :=
  nodes.flatMap (fun n => [PMCall.sendMessage n.peer,
    PMCall.upsertOp "DataExchangeBatchSend" (tracking2 n.peer)])

/-- Modelled from the spec: dispatch of one private batch (section 4.4) -
all blob transfers, then all message envelopes, then the pin submission via
SubmitPinnedBatch, sequentially. -/
def dispatchBatchPrivate (blobLookup : String → Option String)
    (tracking : String → String → String) (tracking2 : String → String)
    (datas : List PMDataGo) (nodes : List NodeGo) : Except String (List PMCall) :=
  match blobPhaseCalls blobLookup tracking nodes datas with
  | Except.error e => Except.error e
  | Except.ok blobCalls =>
    Except.ok (blobCalls ++ sendPhaseCalls tracking2 nodes ++ [PMCall.submitPinnedBatch])

/-- A concrete token-pool event, well-formed except that the transaction
hash is missing, carrying a non-empty envelope id (the shape of scenario 8
of the spec). -/
def c5msg : WsEvent :=
  { event := "token-pool", id := "1",
    data := { id := "", success := false, message := "", ttype := "fungible",
              poolId := "F1", trackingId := "tid1", operator_ := "0x1",
              transactionHash := "" } }

/-- A concrete receipt event whose data carries no id. -/
def c9msg : WsEvent :=
  { event := "receipt", id := "",
    data := { id := "", success := true, message := "", ttype := "",
              poolId := "", trackingId := "", operator_ := "",
              transactionHash := "" } }

/-- The mock environment of TestDispatchBatchSubmitBroadcastFail: UpdateBatch
and UpsertOperation succeed, SubmitPinnedBatch fails with "pop". -/
def c6env : BMEnv :=
  { publicstorageName := "ut_publicstorage", updateBatchErr := none,
    upsertOperationErr := none, submitPinnedBatchErr := some "pop" }

/-- The foreign-author batch of TestDispatchBatchSubmitBroadcastFail. -/
def c6batch : BatchGo := { author := "wrong", payloadRef := "id1" }

/-- The private-batch payload of TestDispatchBatchWithBlobs: one data entry
with a blob reference. -/
def c7datas : List PMDataGo := [{ id := 1, blobHash := some "b1" }]

/-- The two recipient nodes of TestDispatchBatchWithBlobs. -/
def c7nodes : List NodeGo := [{ peer := "node1" }, { peer := "node2" }]

/-- Expected private-dispatch call trace for `c7datas`/`c7nodes`: both blob
transfers (with their blob-send operation upserts), then both envelopes
(with their batch-send operation upserts), then the pin. -/
def c7trace : List PMCall :=
  [PMCall.getBlobMatchingHash "b1",
   PMCall.transferBlob "node1" "/blob/1",
   PMCall.upsertOp "DataExchangeBlobSend" "t-node1",
   PMCall.transferBlob "node2" "/blob/1",
   PMCall.upsertOp "DataExchangeBlobSend" "t-node2",
   PMCall.sendMessage "node1",
   PMCall.upsertOp "DataExchangeBatchSend" "s-node1",
   PMCall.sendMessage "node2",
   PMCall.upsertOp "DataExchangeBatchSend" "s-node2",
   PMCall.submitPinnedBatch]

/-- A concrete message with two data references, for exercising
`NewMessageDataOp`. -/
def c10msg : MessageGo :=
  { header := { id := 77, ns := "ns1" }, data := [{ id := 5 }, { id := 6 }] }

/-- A concrete dispatch state holding a filled batch, with a timer armed. -/
def c4batch : DBBatch :=
  { author := "a", btype := "t", batchID := 9, created := 100,
    completed := none, records := [1, 2] }

/-- See `c4batch`. -/
def c4state : BPState :=
  { assemblyBatch := some c4batch, dispatchTimeout := some 50,
    batchInFlight := none }

/-- The blob hash used by TestHashDataNull. -/
def c8hash : String :=
  "6014cbaf6bde9f9d755f347cb326db88859475e9d1a215d5dc4ccd8ae9caec7c"

/-- A concrete configuration: seal at two records, retry with initial delay
5 ms, multiplier 3, cap 1000000 ms. -/
def c12cfg : BPConfig :=
  { addTimeoutMS := 100, batchTimeoutArrivallMS := 50,
    batchTimeoutOverallMS := 500, batchMaxRecords := 2,
    retryInitialDelayMS := 5, retryMaxDelayMS := 1000000,
    retryMultiplier := 3 }

/-- Three concurrently queued records (the capacity-seal scenario). -/
def c12tasks : List BatchAssemblyTask :=
  [{ timestamp := 10, record := 1 }, { timestamp := 11, record := 2 },
   { timestamp := 12, record := 3 }]

/-- Two assembler iterations, both upserts succeeding. -/
def c12envs : List IterEnv :=
  [{ now := 20, freshID := 100, upsertErr := none },
   { now := 21, freshID := 101, upsertErr := none }]

/-- The first (full) batch the assembler persists on `c12tasks`. -/
def c12batch1 : DBBatch :=
  { author := "a", btype := "t", batchID := 100, created := 20,
    completed := none, records := [1, 2] }

/-- Three retry attempts: the callback fails twice, then everything
succeeds. -/
def c3envs : List PBAttemptEnv :=
  [{ now := 30, callbackErr := some "pop", upsertErr := none },
   { now := 31, callbackErr := some "pop", upsertErr := none },
   { now := 32, callbackErr := none, upsertErr := none }]

/-- C8: for every Data value whose JSON value field is null (or absent) and
whose blob reference carries hash H, CalcHash returns exactly H - the null
value contributes no bytes, so the blob hash alone determines the result
(for every choice of digest function). -/
theorem c8_null_value_hash (sha : String → String) (d : DataGo) (H : String)
    (hnull : d.value = none ∨ d.value = some "null")
    (hblob : d.blob = some { hash := some H }) :
    CalcHash sha d = Except.ok H := by
  rcases hnull with h | h <;> simp [CalcHash, hblob, h]

/-- Witness for C8, at the concrete blob hash of TestHashDataNull. -/
theorem c8_witness :
    CalcHash (fun s => s)
      { value := some "null", blob := some { hash := some c8hash } } =
      Except.ok c8hash :=
  c8_null_value_hash (fun s => s) _ _ (Or.inr rfl) rfl

/-- C10: NewMessageDataOp indexes msg.Data[dataIdx] without a bounds check.
In range, it returns the Operation whose Data is msg.Data[dataIdx].ID and
whose Message is msg.Header.ID; out of range the access panics (modelled by
`none`), so in-range is a required precondition. -/
theorem c10_new_message_data_op (pluginName backendID : String) (msg : MessageGo)
    (dataIdx : Nat) (opType opStatus recipient : String) (freshID : FFUUID)
    (now : Nat) :
    (∀ h : dataIdx < msg.data.length,
      NewMessageDataOp pluginName backendID msg dataIdx opType opStatus recipient
          freshID now =
        some { id := freshID, plugin := pluginName, backendID := backendID,
               ns := msg.header.ns, message := some msg.header.id,
               data := some (msg.data.get ⟨dataIdx, h⟩).id,
               optype := opType, recipient := recipient, status := opStatus,
               errorMsg := "", created := now, updated := none }) ∧
    (msg.data.length ≤ dataIdx →
      NewMessageDataOp pluginName backendID msg dataIdx opType opStatus recipient
        freshID now = none) := by
  constructor
  · intro h
    simp only [NewMessageDataOp, List.get?_eq_getElem?, List.getElem?_eq_getElem h,
      Option.map_some']
    rfl
  · intro h
    simpa [NewMessageDataOp] using h

/-- Witness for C10: the in-range and out-of-range cases at a concrete
two-entry message. -/
theorem c10_witness :
    NewMessageDataOp "dx" "bid" c10msg 1 "DataExchangeBatchSend" "pending" "peer1" 3 10 =
      some { id := 3, plugin := "dx", backendID := "bid", ns := "ns1",
             message := some 77, data := some 6,
             optype := "DataExchangeBatchSend", recipient := "peer1",
             status := "pending", errorMsg := "", created := 10, updated := none } ∧
    NewMessageDataOp "dx" "bid" c10msg 2 "DataExchangeBatchSend" "pending" "peer1" 3 10 =
      none :=
  ⟨(c10_new_message_data_op "dx" "bid" c10msg 1 "DataExchangeBatchSend" "pending"
      "peer1" 3 10).1 (by decide),
   (c10_new_message_data_op "dx" "bid" c10msg 2 "DataExchangeBatchSend" "pending"
      "peer1" 3 10).2 (by decide)⟩

/-- C9: for every receipt event whose data.id is empty or does not parse as
a uuid, handleReceipt logs the bad reply and returns a nil error without
invoking the TokensOpUpdate callback; the event loop neither acks receipts
nor exits, so it continues running. -/
theorem c9_receipt_bad_id_swallowed (parseUUID : String → Option Nat)
    (opUpdateErr poolCreatedErr ackSendErr : Option String) (msg : WsEvent)
    (hev : msg.event = "receipt")
    (hbad : msg.data.id = "" ∨ parseUUID msg.data.id = none) :
    handleReceipt parseUUID opUpdateErr msg.data =
      { err := none, callbackInvoked := false } ∧
    (eventLoopStep parseUUID opUpdateErr poolCreatedErr ackSendErr msg).outcome =
      LoopOutcome.continueLoop ∧
    (eventLoopStep parseUUID opUpdateErr poolCreatedErr ackSendErr msg).ackSent =
      false := by
  have hh : handleReceipt parseUUID opUpdateErr msg.data =
      { err := none, callbackInvoked := false } := by
    rcases hbad with h | h
    · simp [handleReceipt, h]
    · by_cases h0 : msg.data.id = ""
      · simp [handleReceipt, h0]
      · simp [handleReceipt, h0, h]
  refine ⟨hh, ?_, ?_⟩ <;> simp [eventLoopStep, hev, hh]

/-- Witness for C9 at a concrete receipt event with an empty data.id. -/
theorem c9_witness :
    handleReceipt (fun _ => some 0) (some "poperr") c9msg.data =
      { err := none, callbackInvoked := false } ∧
    (eventLoopStep (fun _ => some 0) (some "poperr") none none c9msg).outcome =
      LoopOutcome.continueLoop :=
  ⟨(c9_receipt_bad_id_swallowed (fun _ => some 0) (some "poperr") none none c9msg
      rfl (Or.inl rfl)).1,
   (c9_receipt_bad_id_swallowed (fun _ => some 0) (some "poperr") none none c9msg
      rfl (Or.inl rfl)).2.1⟩

/-- C5 counterexample: a token-pool event with a non-empty envelope id and a
missing transactionHash is swallowed (nil error, callback not invoked), but
an ack IS sent back for it - the event loop acks every non-receipt event
whose handler returned nil and whose id is non-empty, refuting "no ack is
sent back for the event". -/
theorem c5_counterexample :
    (eventLoopStep (fun _ => some 0) none none none c5msg).ackSent = true ∧
    handleTokenPoolCreate (fun _ => some 0) none c5msg.data =
      { err := none, callbackInvoked := false } := by
  constructor
  · rfl
  · rfl

/-- C5 (amended): for every token-pool event missing the transactionHash,
handleTokenPoolCreate returns a nil error without invoking the
TokenPoolCreated callback; the event loop then sends an ack if and only if
the envelope id is non-empty, and continues unless that ack send fails. -/
theorem c5_token_pool_missing_field_acked (parseUUID : String → Option Nat)
    (opUpdateErr poolCreatedErr ackSendErr : Option String) (msg : WsEvent)
    (hev : msg.event = "token-pool")
    (hmiss : msg.data.transactionHash = "") :
    handleTokenPoolCreate parseUUID poolCreatedErr msg.data =
      { err := none, callbackInvoked := false } ∧
    (eventLoopStep parseUUID opUpdateErr poolCreatedErr ackSendErr msg).callbackInvoked
      = false ∧
    ((eventLoopStep parseUUID opUpdateErr poolCreatedErr ackSendErr msg).ackSent = true
      ↔ msg.id ≠ "") ∧
    ((eventLoopStep parseUUID opUpdateErr poolCreatedErr ackSendErr msg).outcome =
      LoopOutcome.continueLoop ↔ (msg.id = "" ∨ ackSendErr = none)) := by
  have hh : handleTokenPoolCreate parseUUID poolCreatedErr msg.data =
      { err := none, callbackInvoked := false } := by
    simp [handleTokenPoolCreate, hmiss]
  by_cases hid : msg.id = ""
  · refine ⟨hh, ?_, ?_, ?_⟩ <;> simp [eventLoopStep, hev, hh, hid]
  · by_cases hack : ackSendErr = none
    · refine ⟨hh, ?_, ?_, ?_⟩ <;> simp [eventLoopStep, hev, hh, hid, hack]
    · refine ⟨hh, ?_, ?_, ?_⟩ <;> simp [eventLoopStep, hev, hh, hid, hack]

/-- Witness for the amended C5 at the concrete event `c5msg`. -/
theorem c5_witness :
    handleTokenPoolCreate (fun _ => some 0) none c5msg.data =
      { err := none, callbackInvoked := false } ∧
    ((eventLoopStep (fun _ => some 0) none none none c5msg).ackSent = true
      ↔ c5msg.id ≠ "") :=
  ⟨(c5_token_pool_missing_field_acked (fun _ => some 0) none none none c5msg
      rfl rfl).1,
   (c5_token_pool_missing_field_acked (fun _ => some 0) none none none c5msg
      rfl rfl).2.2.1⟩

/-- C6 counterexample: at the exact scenario of
TestDispatchBatchSubmitBroadcastFail (author "wrong", i.e. foreign;
UpdateBatch and UpsertOperation succeed; the pin submitter fails with
"pop"), the submit path does invoke SubmitPinnedBatch for the foreign-author
batch and propagates its failure, while the behaviour the claim describes
(`submitTXAndUpdateDBSpec`) would have returned success with no pin call -
refuting "the dispatch completes successfully without submitting a
blockchain pin". -/
theorem c6_counterexample :
    (submitTXAndUpdateDB c6env c6batch).2 = some "pop" ∧
    BMCall.submitPinnedBatch "wrong" ∈ (submitTXAndUpdateDB c6env c6batch).1 ∧
    (submitTXAndUpdateDBSpec "UTNodeID" c6env c6batch).2 = none ∧
    BMCall.submitPinnedBatch "wrong" ∉
      (submitTXAndUpdateDBSpec "UTNodeID" c6env c6batch).1 := by
  refine ⟨rfl, ?_, rfl, ?_⟩ <;> decide

/-- C6 (amended): the broadcast submit path does not inspect batch.author:
whenever UpdateBatch and UpsertOperation succeed it always calls
SubmitPinnedBatch - also for a foreign author - and returns exactly the pin
submitter's outcome, so a pin-submission failure propagates (per
TestDispatchBatchSubmitBroadcastFail). -/
theorem c6_foreign_author_pin_submitted (env : BMEnv) (batch : BatchGo)
    (h1 : env.updateBatchErr = none) (h2 : env.upsertOperationErr = none) :
    (submitTXAndUpdateDB env batch).1 =
      [BMCall.updateBatch,
       BMCall.upsertOperation "PublicStorageBatchBroadcast" env.publicstorageName
         batch.payloadRef,
       BMCall.submitPinnedBatch batch.author] ∧
    (submitTXAndUpdateDB env batch).2 = env.submitPinnedBatchErr := by
  simp [submitTXAndUpdateDB, h1, h2]

/-- Witness for the amended C6 at the test's concrete environment. -/
theorem c6_witness :
    (submitTXAndUpdateDB c6env c6batch).1 =
      [BMCall.updateBatch,
       BMCall.upsertOperation "PublicStorageBatchBroadcast" "ut_publicstorage" "id1",
       BMCall.submitPinnedBatch "wrong"] ∧
    (submitTXAndUpdateDB c6env c6batch).2 = some "pop" :=
  c6_foreign_author_pin_submitted c6env c6batch rfl rfl

/-- C4: dispatchBatch is idempotent with respect to an empty assembly slot:
from a state holding batch b, the first invocation starts processing of b
and empties the slot; an immediately following invocation starts nothing;
and any invocation that finds the slot empty returns without starting any
batch processing (clearing only the timer) - so each assembled batch is
handed to processBatch exactly once. -/
theorem c4_dispatch_idempotent (s : BPState) (b : DBBatch)
    (h : s.assemblyBatch = some b) :
    (dispatchBatchStep s).2 = some b ∧
    ((dispatchBatchStep s).1).assemblyBatch = none ∧
    (dispatchBatchStep (dispatchBatchStep s).1).2 = none ∧
    (∀ s' : BPState, s'.assemblyBatch = none →
      (dispatchBatchStep s').2 = none ∧
      (dispatchBatchStep s').1 = { s' with dispatchTimeout := none }) := by
  refine ⟨?_, ?_, ?_, ?_⟩
  · simp [dispatchBatchStep, h]
  · simp [dispatchBatchStep, h]
  · simp [dispatchBatchStep, h]
  · intro s' h'
    simp [dispatchBatchStep, h']

/-- Witness for C4 at a concrete state holding a filled batch. -/
theorem c4_witness :
    (dispatchBatchStep c4state).2 = some c4batch ∧
    (dispatchBatchStep (dispatchBatchStep c4state).1).2 = none :=
  ⟨(c4_dispatch_idempotent c4state c4batch rfl).1,
   (c4_dispatch_idempotent c4state c4batch rfl).2.2.1⟩

/-- Every call emitted by the blob phase is a blob-phase call. -/
theorem blobPhaseCalls_all (blobLookup : String → Option String)
    (tracking : String → String → String) (nodes : List NodeGo) :
    ∀ (datas : List PMDataGo) (calls : List PMCall),
      blobPhaseCalls blobLookup tracking nodes datas = Except.ok calls →
      ∀ c ∈ calls, isBlobPhase c = true := by
  intro datas
  induction datas with
  | nil =>
    intro calls h c hc
    simp [blobPhaseCalls] at h
    subst h
    simp at hc
  | cons d ds ih =>
    intro calls h c hc
    rw [blobPhaseCalls] at h
    rcases hd : d.blobHash with _ | bh
    · rw [hd] at h
      exact ih calls h c hc
    · rw [hd] at h
      dsimp only at h
      rcases hl : blobLookup bh with _ | payloadRef
      · rw [hl] at h
        exact absurd h (by simp)
      · rw [hl] at h
        rcases hr : blobPhaseCalls blobLookup tracking nodes ds with e | restCalls
        · rw [hr] at h
          exact absurd h (by simp)
        · rw [hr] at h
          simp only [Except.ok.injEq] at h
          subst h
          rcases List.mem_append.mp hc with hc1 | hc2
          · rcases List.mem_cons.mp hc1 with hc0 | hcf
            · subst hc0; rfl
            · rcases List.mem_flatMap.mp hcf with ⟨n, _, hcn⟩
              rcases List.mem_cons.mp hcn with h1 | h2
              · subst h1; rfl
              · rcases List.mem_cons.mp h2 with h3 | h4
                · subst h3; simp [isBlobPhase]
                · simp at h4
          · exact ih restCalls hr c hc2

/-- Every call emitted by the envelope phase is a send-phase call. -/
theorem sendPhaseCalls_all (tracking2 : String → String) (nodes : List NodeGo) :
    ∀ c ∈ sendPhaseCalls tracking2 nodes, isSendPhase c = true := by
  intro c hc
  rcases List.mem_flatMap.mp hc with ⟨n, _, hcn⟩
  rcases List.mem_cons.mp hcn with h1 | h2
  · subst h1; rfl
  · rcases List.mem_cons.mp h2 with h3 | h4
    · subst h3; simp [isSendPhase]
    · simp at h4

/-- C7: within the dispatch of one private batch the call sequence
decomposes as blob phase, then envelope phase, then the pin: every blob
transfer (TransferBLOB plus its DataExchangeBlobSend Operation upsert)
precedes every SendMessage (plus its DataExchangeBatchSend Operation
upsert), and every send precedes the single SubmitPinnedBatch, which comes
last. -/
theorem c7_private_dispatch_order (blobLookup : String → Option String)
    (tracking : String → String → String) (tracking2 : String → String)
    (datas : List PMDataGo) (nodes : List NodeGo) (T : List PMCall)
    (h : dispatchBatchPrivate blobLookup tracking tracking2 datas nodes =
      Except.ok T) :
    ∃ A B, T = A ++ B ++ [PMCall.submitPinnedBatch] ∧
      (∀ c ∈ A, isBlobPhase c = true) ∧ (∀ c ∈ B, isSendPhase c = true) := by
  rw [dispatchBatchPrivate] at h
  rcases hb : blobPhaseCalls blobLookup tracking nodes datas with e | blobCalls
  · rw [hb] at h
    exact absurd h (by simp)
  · rw [hb] at h
    simp only [Except.ok.injEq] at h
    subst h
    exact ⟨blobCalls, sendPhaseCalls tracking2 nodes,
      by simp [List.append_assoc],
      blobPhaseCalls_all blobLookup tracking nodes datas blobCalls hb,
      sendPhaseCalls_all tracking2 nodes⟩

/-- Witness for C7 at the TestDispatchBatchWithBlobs scenario (one blob,
two recipient nodes). -/
theorem c7_witness :
    ∃ A B, c7trace = A ++ B ++ [PMCall.submitPinnedBatch] ∧
      (∀ c ∈ A, isBlobPhase c = true) ∧ (∀ c ∈ B, isSendPhase c = true) :=
  c7_private_dispatch_order (fun _ => some "/blob/1")
    (fun p _ => "t-" ++ p) (fun p => "s-" ++ p) c7datas c7nodes c7trace rfl

theorem sleepsOf_nil : sleepsOf [] = [] := rfl

theorem sleepsOf_callback (β : DBBatch) (T : List PBEvent) :
    sleepsOf (PBEvent.callbackAttempt β :: T) = sleepsOf T := rfl

theorem sleepsOf_upsert (β : DBBatch) (T : List PBEvent) :
    sleepsOf (PBEvent.upsertAttempt β :: T) = sleepsOf T := rfl

theorem sleepsOf_sleep (d : Nat) (T : List PBEvent) :
    sleepsOf (PBEvent.sleep d :: T) = d :: sleepsOf T := rfl

theorem callbackStamps_nil : callbackStamps [] = [] := rfl

theorem callbackStamps_callback (β : DBBatch) (T : List PBEvent) :
    callbackStamps (PBEvent.callbackAttempt β :: T) =
      β.completed :: callbackStamps T := rfl

theorem callbackStamps_upsert (β : DBBatch) (T : List PBEvent) :
    callbackStamps (PBEvent.upsertAttempt β :: T) = callbackStamps T := rfl

theorem callbackStamps_sleep (d : Nat) (T : List PBEvent) :
    callbackStamps (PBEvent.sleep d :: T) = callbackStamps T := rfl

/-- The retry-delay for-loop computes `init * multiplier ^ n`. -/
theorem foldl_mul_range (m i : Nat) :
    ∀ n, (List.range n).foldl (fun d _ => d * m) i = i * m ^ n := by
  intro n
  induction n with
  | zero => simp
  | succ n ih =>
    rw [List.range_succ, List.foldl_append, ih]
    simp [pow_succ, Nat.mul_assoc]

/-- Closed form of the retry delay for attempt k+1. -/
theorem retryDelayCode_closed (cfg : BPConfig) (k : Nat) :
    retryDelayCode cfg (k + 1) =
      min (cfg.retryInitialDelayMS * cfg.retryMultiplier ^ k) cfg.retryMaxDelayMS := by
  simp [retryDelayCode, foldl_mul_range]

/-- Each attempt of the retry loop re-stamps `completed` with its own clock
reading just before invoking the callback: the stamps seen by the callback
are exactly the clocks of the attempts made. -/
theorem processBatch_stamps (cfg : BPConfig) :
    ∀ (envs : List PBAttemptEnv) (a : Nat) (b : DBBatch),
      callbackStamps (processBatchLoop cfg envs a b).1 =
        (envs.take (numAttempts envs)).map (fun e => some e.now) := by
  intro envs
  induction envs with
  | nil => intro a b; simp [processBatchLoop, callbackStamps_nil, numAttempts]
  | cons env envs ih =>
    intro a b
    rcases hcb : env.callbackErr with _ | ce
    · rcases hup : env.upsertErr with _ | ue
      · have hok : env.ok = true := by simp [PBAttemptEnv.ok, hcb, hup]
        simp [processBatchLoop, hcb, hup, callbackStamps_callback,
          callbackStamps_upsert, callbackStamps_nil, numAttempts, hok]
      · have hok : env.ok = false := by simp [PBAttemptEnv.ok, hup]
        simp [processBatchLoop, hcb, hup, callbackStamps_callback,
          callbackStamps_upsert, callbackStamps_sleep, numAttempts, hok, ih]
    · have hok : env.ok = false := by simp [PBAttemptEnv.ok, hcb]
      simp [processBatchLoop, hcb, callbackStamps_callback, callbackStamps_sleep,
        numAttempts, hok, ih]

/-- The retry loop exits iff some attempt within the fuel has both the
callback and the final upsert succeeding. -/
theorem processBatch_exit (cfg : BPConfig) :
    ∀ (envs : List PBAttemptEnv) (a : Nat) (b : DBBatch),
      (processBatchLoop cfg envs a b).2.isSome = envs.any PBAttemptEnv.ok := by
  intro envs
  induction envs with
  | nil => intro a b; simp [processBatchLoop]
  | cons env envs ih =>
    intro a b
    rcases hcb : env.callbackErr with _ | ce
    · rcases hup : env.upsertErr with _ | ue
      · have hok : env.ok = true := by simp [PBAttemptEnv.ok, hcb, hup]
        simp [processBatchLoop, hcb, hup, hok]
      · have hok : env.ok = false := by simp [PBAttemptEnv.ok, hup]
        simp [processBatchLoop, hcb, hup, hok, ih]
    · have hok : env.ok = false := by simp [PBAttemptEnv.ok, hcb]
      simp [processBatchLoop, hcb, hok, ih]

/-- The sleeps of the retry loop, starting from attempt counter `a`, are the
retry delays of attempts a+1, a+2, ... for each failed attempt before the
first success. -/
theorem processBatch_sleeps (cfg : BPConfig) :
    ∀ (envs : List PBAttemptEnv) (a : Nat) (b : DBBatch),
      sleepsOf (processBatchLoop cfg envs a b).1 =
        (List.range (numFails envs)).map (fun i => retryDelayCode cfg (a + 1 + i)) := by
  intro envs
  induction envs with
  | nil => intro a b; simp [processBatchLoop, sleepsOf_nil, numFails]
  | cons env envs ih =>
    intro a b
    have step : ∀ a' : Nat,
        (List.range (numFails envs + 1)).map
            (fun i => retryDelayCode cfg (a' + 1 + i)) =
          retryDelayCode cfg (a' + 1) ::
            (List.range (numFails envs)).map
              (fun i => retryDelayCode cfg (a' + 1 + 1 + i)) := by
      intro a'
      rw [List.range_succ_eq_map]
      simp only [List.map_cons, List.map_map, Nat.add_zero]
      refine congrArg₂ _ rfl ?_
      apply List.map_congr_left
      intro i _
      simp only [Function.comp_apply]
      congr 1
      omega
    rcases hcb : env.callbackErr with _ | ce
    · rcases hup : env.upsertErr with _ | ue
      · have hok : env.ok = true := by simp [PBAttemptEnv.ok, hcb, hup]
        simp [processBatchLoop, hcb, hup, sleepsOf_callback, sleepsOf_upsert,
          sleepsOf_nil, numFails, hok]
      · have hok : env.ok = false := by simp [PBAttemptEnv.ok, hup]
        rw [show numFails (env :: envs) = numFails envs + 1 by simp [numFails, hok],
          step a]
        simp [processBatchLoop, hcb, hup, sleepsOf_callback, sleepsOf_upsert,
          sleepsOf_sleep, ih]
    · have hok : env.ok = false := by simp [PBAttemptEnv.ok, hcb]
      rw [show numFails (env :: envs) = numFails envs + 1 by simp [numFails, hok],
        step a]
      simp [processBatchLoop, hcb, sleepsOf_callback, sleepsOf_sleep, ih]

/-- C3: in processBatch, the delay slept after failing attempt k (the k-th
entry of the sleep sequence, k = i+1) is
min(retryInitialDelayMS * retryMultiplier^(k-1), retryMaxDelayMS); each
attempt re-stamps batch.completed with its own clock before invoking the
callback (the stamp sequence equals the clock sequence of the attempts
made); and the loop never abandons the batch: it exits exactly when some
attempt has both the callback and the final upsertBatch succeed. -/
theorem c3_retry_loop (cfg : BPConfig) (envs : List PBAttemptEnv) (b : DBBatch) :
    (∀ k : Nat, retryDelayCode cfg (k + 1) =
      min (cfg.retryInitialDelayMS * cfg.retryMultiplier ^ k) cfg.retryMaxDelayMS) ∧
    callbackStamps (processBatchLoop cfg envs 0 b).1 =
      (envs.take (numAttempts envs)).map (fun e => some e.now) ∧
    (processBatchLoop cfg envs 0 b).2.isSome = envs.any PBAttemptEnv.ok ∧
    sleepsOf (processBatchLoop cfg envs 0 b).1 =
      (List.range (numFails envs)).map
        (fun i => min (cfg.retryInitialDelayMS * cfg.retryMultiplier ^ i)
          cfg.retryMaxDelayMS) := by
  refine ⟨retryDelayCode_closed cfg, processBatch_stamps cfg envs 0 b,
    processBatch_exit cfg envs 0 b, ?_⟩
  rw [processBatch_sleeps cfg envs 0 b]
  apply List.map_congr_left
  intro i _
  rw [show 0 + 1 + i = i + 1 by omega, retryDelayCode_closed]

/-- Witness for C3: callback fails twice then succeeds (`c3envs`, with
d = 5 ms and multiplier 3): the slept delays are exactly d and d*m, the
stamps are the three attempt clocks, and the loop exits. -/
theorem c3_witness :
    sleepsOf (processBatchLoop c12cfg c3envs 0 c4batch).1 = [5, 15] ∧
    callbackStamps (processBatchLoop c12cfg c3envs 0 c4batch).1 =
      [some 30, some 31, some 32] ∧
    (processBatchLoop c12cfg c3envs 0 c4batch).2.isSome = true :=
  ⟨((c3_retry_loop c12cfg c3envs c4batch).2.2.2).trans (by decide),
   ((c3_retry_loop c12cfg c3envs c4batch).2.1).trans (by decide),
   ((c3_retry_loop c12cfg c3envs c4batch).2.2.1).trans (by decide)⟩

/-- Every event emitted by `rejectAnyStale` is a timeout rejection whose
recorded in-flight time strictly exceeds `addTimeoutMS`. -/
theorem rejectAnyStale_events (cfg : BPConfig) (now : Nat) :
    ∀ (l : List BatchAssemblyTask) (e : BPEvent),
      e ∈ (rejectAnyStale cfg now l).2 →
      ∃ r t, e = BPEvent.rejectTimeout r t ∧ cfg.addTimeoutMS < t := by
  intro l
  induction l with
  | nil => intro e he; simp [rejectAnyStale] at he
  | cons a rest ih =>
    intro e he
    simp only [rejectAnyStale] at he
    by_cases hc : cfg.addTimeoutMS < now - a.timestamp
    · rw [if_pos hc] at he
      rcases List.mem_cons.mp he with h1 | h2
      · exact ⟨a.record, now - a.timestamp, h1, hc⟩
      · exact ih e h2
    · rw [if_neg hc] at he
      exact ih e he

/-- Corollary: stale-rejection events are neutral for `okTraceB`. -/
theorem rejectAnyStale_neutral (cfg : BPConfig) (now : Nat)
    (l : List BatchAssemblyTask) :
    ∀ e ∈ (rejectAnyStale cfg now l).2, isNeutralEvt e = true := by
  intro e he
  obtain ⟨r, t, heq, _⟩ := rejectAnyStale_events cfg now l e he
  subst heq
  rfl

/-- Neutral events pass through `okTraceB` unchanged. -/
theorem okTraceB_neutral_append :
    ∀ (A X : List BPEvent) (seen : List (Nat × Nat)),
      (∀ e ∈ A, isNeutralEvt e = true) →
      okTraceB seen (A ++ X) = okTraceB seen X := by
  intro A
  induction A with
  | nil => intro X seen _; rfl
  | cons e rest ih =>
    intro X seen hA
    have he : isNeutralEvt e = true := hA e (List.mem_cons_self e rest)
    have hrest : ∀ e' ∈ rest, isNeutralEvt e' = true :=
      fun e' h' => hA e' (List.mem_cons_of_mem e h')
    cases e with
    | upsertBatch β => simp [isNeutralEvt] at he
    | resolveTask r b => simp [isNeutralEvt] at he
    | upsertFail β er => exact ih X seen hrest
    | dispatch β => exact ih X seen hrest
    | setTimer ms => exact ih X seen hrest
    | rejectTimeout r t => exact ih X seen hrest
    | rejectError r β er => exact ih X seen hrest

/-- A wholly neutral trace satisfies `okTraceB`. -/
theorem okTraceB_neutral (A : List BPEvent) (seen : List (Nat × Nat))
    (h : ∀ e ∈ A, isNeutralEvt e = true) : okTraceB seen A = true := by
  have := okTraceB_neutral_append A [] seen h
  simpa using this

/-- Resolve events whose pairs are already persisted pass through
`okTraceB`. -/
theorem okTraceB_resolve_append :
    ∀ (chosen : List BatchAssemblyTask) (bid : Nat) (X : List BPEvent)
      (seen : List (Nat × Nat)),
      (∀ a ∈ chosen, (a.record, bid) ∈ seen) →
      okTraceB seen (resolveEvents chosen bid ++ X) = okTraceB seen X := by
  intro chosen
  induction chosen with
  | nil => intro bid X seen _; rfl
  | cons a rest ih =>
    intro bid X seen h
    have ha : (a.record, bid) ∈ seen := h a (List.mem_cons_self a rest)
    have hrest : ∀ x ∈ rest, (x.record, bid) ∈ seen :=
      fun x hx => h x (List.mem_cons_of_mem a hx)
    have step : okTraceB seen (resolveEvents (a :: rest) bid ++ X) =
        (decide ((a.record, bid) ∈ seen) && okTraceB seen (resolveEvents rest bid ++ X)) :=
      rfl
    rw [step, decide_eq_true ha, Bool.true_and, ih bid X seen hrest]

theorem okTraceB_cons_upsert (β : DBBatch) (T : List BPEvent)
    (seen : List (Nat × Nat)) :
    okTraceB seen (BPEvent.upsertBatch β :: T) =
      okTraceB (seen ++ persistedPairs β) T := rfl

theorem okTraceB_cons_dispatch (β : DBBatch) (T : List BPEvent)
    (seen : List (Nat × Nat)) :
    okTraceB seen (BPEvent.dispatch β :: T) = okTraceB seen T := rfl

theorem okTraceB_cons_setTimer (i : Int) (T : List BPEvent)
    (seen : List (Nat × Nat)) :
    okTraceB seen (BPEvent.setTimer i :: T) = okTraceB seen T := rfl

/-- The catch-block reject events are neutral for `okTraceB`. -/
theorem rejectEvents_neutral (chosen : List BatchAssemblyTask) (β : DBBatch)
    (err : String) : ∀ e ∈ rejectEvents chosen β err, isNeutralEvt e = true := by
  intro e he
  rcases List.mem_map.mp he with ⟨a, _, rfl⟩
  rfl

/-- Resolve events whose pairs are already persisted satisfy `okTraceB`. -/
theorem okTraceB_resolves (chosen : List BatchAssemblyTask) (bid : Nat)
    (seen : List (Nat × Nat)) (h : ∀ a ∈ chosen, (a.record, bid) ∈ seen) :
    okTraceB seen (resolveEvents chosen bid) = true := by
  have := okTraceB_resolve_append chosen bid [] seen h
  simpa using this

/-- One iteration of the assembler resolves tasks only after its own
successful upsert (for any prior persisted set). -/
theorem assemblerIter_okTraceB (cfg : BPConfig) (author btype : String)
    (env : IterEnv) (tasks : List BatchAssemblyTask) (ab : Option DBBatch)
    (seen : List (Nat × Nat)) :
    okTraceB seen (assemblerIter cfg author btype env tasks ab).1 = true := by
  have hstale := rejectAnyStale_neutral cfg env.now tasks
  simp only [assemblerIter]
  split
  · exact okTraceB_neutral _ seen hstale
  · split
    · -- upsert threw: the whole block is neutral
      apply okTraceB_neutral
      intro x hx
      rcases List.mem_append.mp hx with h1 | h2
      · exact hstale x h1
      · rcases List.mem_cons.mp h2 with h3 | h4
        · subst h3; rfl
        · exact rejectEvents_neutral _ _ _ x h4
    · split
      · -- batch full: upsert, dispatch, then resolves
        rw [okTraceB_neutral_append _ _ _ hstale, okTraceB_cons_upsert,
          okTraceB_cons_dispatch]
        apply okTraceB_resolves
        intro a ha
        exact List.mem_append_right _ (List.mem_map_of_mem _
          (List.mem_append_right _ (List.mem_map_of_mem _ ha)))
      · -- batch not full: upsert, timer, then resolves
        rw [okTraceB_neutral_append _ _ _ hstale, okTraceB_cons_upsert,
          okTraceB_cons_setTimer]
        apply okTraceB_resolves
        intro a ha
        exact List.mem_append_right _ (List.mem_map_of_mem _
          (List.mem_append_right _ (List.mem_map_of_mem _ ha)))

/-- `okTraceB` splits over concatenation: the suffix runs against the
persisted pairs accumulated by the prefix. -/
theorem okTraceB_append_eq :
    ∀ (A X : List BPEvent) (seen : List (Nat × Nat)),
      okTraceB seen (A ++ X) =
        (okTraceB seen A && okTraceB (seenAfter seen A) X) := by
  intro A
  induction A with
  | nil => intro X seen; simp [okTraceB, seenAfter]
  | cons e rest ih =>
    intro X seen
    cases e with
    | upsertBatch β =>
      have h1 : okTraceB seen (BPEvent.upsertBatch β :: (rest ++ X)) =
          okTraceB (seen ++ persistedPairs β) (rest ++ X) := rfl
      have h2 : okTraceB seen (BPEvent.upsertBatch β :: rest) =
          okTraceB (seen ++ persistedPairs β) rest := rfl
      have h3 : seenAfter seen (BPEvent.upsertBatch β :: rest) =
          seenAfter (seen ++ persistedPairs β) rest := rfl
      rw [List.cons_append, h1, h2, h3, ih]
    | resolveTask r b =>
      have h1 : okTraceB seen (BPEvent.resolveTask r b :: (rest ++ X)) =
          (decide ((r, b) ∈ seen) && okTraceB seen (rest ++ X)) := rfl
      have h2 : okTraceB seen (BPEvent.resolveTask r b :: rest) =
          (decide ((r, b) ∈ seen) && okTraceB seen rest) := rfl
      have h3 : seenAfter seen (BPEvent.resolveTask r b :: rest) =
          seenAfter seen rest := rfl
      rw [List.cons_append, h1, h2, h3, ih, Bool.and_assoc]
    | upsertFail β er =>
      have h1 : okTraceB seen (BPEvent.upsertFail β er :: (rest ++ X)) =
          okTraceB seen (rest ++ X) := rfl
      have h2 : okTraceB seen (BPEvent.upsertFail β er :: rest) =
          okTraceB seen rest := rfl
      have h3 : seenAfter seen (BPEvent.upsertFail β er :: rest) =
          seenAfter seen rest := rfl
      rw [List.cons_append, h1, h2, h3, ih]
    | dispatch β =>
      have h1 : okTraceB seen (BPEvent.dispatch β :: (rest ++ X)) =
          okTraceB seen (rest ++ X) := rfl
      have h2 : okTraceB seen (BPEvent.dispatch β :: rest) =
          okTraceB seen rest := rfl
      have h3 : seenAfter seen (BPEvent.dispatch β :: rest) =
          seenAfter seen rest := rfl
      rw [List.cons_append, h1, h2, h3, ih]
    | setTimer ms =>
      have h1 : okTraceB seen (BPEvent.setTimer ms :: (rest ++ X)) =
          okTraceB seen (rest ++ X) := rfl
      have h2 : okTraceB seen (BPEvent.setTimer ms :: rest) =
          okTraceB seen rest := rfl
      have h3 : seenAfter seen (BPEvent.setTimer ms :: rest) =
          seenAfter seen rest := rfl
      rw [List.cons_append, h1, h2, h3, ih]
    | rejectTimeout r t =>
      have h1 : okTraceB seen (BPEvent.rejectTimeout r t :: (rest ++ X)) =
          okTraceB seen (rest ++ X) := rfl
      have h2 : okTraceB seen (BPEvent.rejectTimeout r t :: rest) =
          okTraceB seen rest := rfl
      have h3 : seenAfter seen (BPEvent.rejectTimeout r t :: rest) =
          seenAfter seen rest := rfl
      rw [List.cons_append, h1, h2, h3, ih]
    | rejectError r β er =>
      have h1 : okTraceB seen (BPEvent.rejectError r β er :: (rest ++ X)) =
          okTraceB seen (rest ++ X) := rfl
      have h2 : okTraceB seen (BPEvent.rejectError r β er :: rest) =
          okTraceB seen rest := rfl
      have h3 : seenAfter seen (BPEvent.rejectError r β er :: rest) =
          seenAfter seen rest := rfl
      rw [List.cons_append, h1, h2, h3, ih]

/-- Main induction for C1: every trace of the assembler loop resolves a task
only after the batch holding its record was successfully persisted. -/
theorem assembler_okTraceB (cfg : BPConfig) (author btype : String) :
    ∀ (envs : List IterEnv) (tasks : List BatchAssemblyTask) (ab : Option DBBatch)
      (seen : List (Nat × Nat)),
      okTraceB seen (assemblerLoop cfg author btype envs tasks ab).1 = true := by
  intro envs
  induction envs with
  | nil => intro tasks ab seen; rfl
  | cons env envs ih =>
    intro tasks ab seen
    simp only [assemblerLoop]
    split
    · dsimp only
      rw [okTraceB_append_eq, assemblerIter_okTraceB cfg author btype env tasks ab seen,
        Bool.true_and]
      exact ih _ _ _
    · exact assemblerIter_okTraceB cfg author btype env tasks ab seen

/-- In one assembler iteration, every timeout rejection carries an in-flight
time beyond `addTimeoutMS`. -/
theorem assemblerIter_rejectTimeout (cfg : BPConfig) (author btype : String)
    (env : IterEnv) (tasks : List BatchAssemblyTask) (ab : Option DBBatch) :
    ∀ r t, BPEvent.rejectTimeout r t ∈ (assemblerIter cfg author btype env tasks ab).1 →
      cfg.addTimeoutMS < t := by
  intro r t ht
  simp only [assemblerIter] at ht
  have fromStale : BPEvent.rejectTimeout r t ∈ (rejectAnyStale cfg env.now tasks).2 →
      cfg.addTimeoutMS < t := by
    intro hs
    obtain ⟨r', t', heq, hb⟩ := rejectAnyStale_events cfg env.now tasks _ hs
    cases heq
    exact hb
  split at ht
  · exact fromStale ht
  · split at ht
    · rcases List.mem_append.mp ht with h1 | h2
      · exact fromStale h1
      · rcases List.mem_cons.mp h2 with h3 | h4
        · cases h3
        · rcases List.mem_map.mp h4 with ⟨a, _, heq⟩
          cases heq
    · split at ht
      · rcases List.mem_append.mp ht with h1 | h2
        · exact fromStale h1
        · rcases List.mem_cons.mp h2 with h3 | h4
          · cases h3
          · rcases List.mem_cons.mp h4 with h5 | h6
            · cases h5
            · rcases List.mem_map.mp h6 with ⟨a, _, heq⟩
              cases heq
      · rcases List.mem_append.mp ht with h1 | h2
        · exact fromStale h1
        · rcases List.mem_cons.mp h2 with h3 | h4
          · cases h3
          · rcases List.mem_cons.mp h4 with h5 | h6
            · cases h5
            · rcases List.mem_map.mp h6 with ⟨a, _, heq⟩
              cases heq

/-- In one assembler iteration, every error rejection names a batch whose
failed persistence attempt contained the rejected record. -/
theorem assemblerIter_rejectError (cfg : BPConfig) (author btype : String)
    (env : IterEnv) (tasks : List BatchAssemblyTask) (ab : Option DBBatch) :
    ∀ r β er,
      BPEvent.rejectError r β er ∈ (assemblerIter cfg author btype env tasks ab).1 →
      r ∈ β.records := by
  intro r β er ht
  simp only [assemblerIter] at ht
  have notStale : BPEvent.rejectError r β er ∈ (rejectAnyStale cfg env.now tasks).2 →
      r ∈ β.records := by
    intro hs
    obtain ⟨r', t', heq, _⟩ := rejectAnyStale_events cfg env.now tasks _ hs
    cases heq
  split at ht
  · exact notStale ht
  · split at ht
    · rcases List.mem_append.mp ht with h1 | h2
      · exact notStale h1
      · rcases List.mem_cons.mp h2 with h3 | h4
        · cases h3
        · rcases List.mem_map.mp h4 with ⟨a, ha, heq⟩
          cases heq
          exact List.mem_append_right _ (List.mem_map_of_mem _ ha)
    · split at ht
      · rcases List.mem_append.mp ht with h1 | h2
        · exact notStale h1
        · rcases List.mem_cons.mp h2 with h3 | h4
          · cases h3
          · rcases List.mem_cons.mp h4 with h5 | h6
            · cases h5
            · rcases List.mem_map.mp h6 with ⟨a, _, heq⟩
              cases heq
      · rcases List.mem_append.mp ht with h1 | h2
        · exact notStale h1
        · rcases List.mem_cons.mp h2 with h3 | h4
          · cases h3
          · rcases List.mem_cons.mp h4 with h5 | h6
            · cases h5
            · rcases List.mem_map.mp h6 with ⟨a, _, heq⟩
              cases heq

/-- Main induction for C1: every timeout rejection in a full assembler run
carries an in-flight time beyond `addTimeoutMS`. -/
theorem assembler_rejectTimeout (cfg : BPConfig) (author btype : String) :
    ∀ (envs : List IterEnv) (tasks : List BatchAssemblyTask) (ab : Option DBBatch)
      (r t : Nat),
      BPEvent.rejectTimeout r t ∈ (assemblerLoop cfg author btype envs tasks ab).1 →
      cfg.addTimeoutMS < t := by
  intro envs
  induction envs with
  | nil => intro tasks ab r t ht; simp [assemblerLoop] at ht
  | cons env envs ih =>
    intro tasks ab r t ht
    simp only [assemblerLoop] at ht
    split at ht
    · dsimp only at ht
      rcases List.mem_append.mp ht with h1 | h2
      · exact assemblerIter_rejectTimeout cfg author btype env tasks ab r t h1
      · exact ih _ _ r t h2
    · exact assemblerIter_rejectTimeout cfg author btype env tasks ab r t ht

/-- Main induction for C1: every error rejection in a full assembler run
names a batch whose failed persistence attempt contained the record. -/
theorem assembler_rejectError (cfg : BPConfig) (author btype : String) :
    ∀ (envs : List IterEnv) (tasks : List BatchAssemblyTask) (ab : Option DBBatch)
      (r : Nat) (β : DBBatch) (er : String),
      BPEvent.rejectError r β er ∈ (assemblerLoop cfg author btype envs tasks ab).1 →
      r ∈ β.records := by
  intro envs
  induction envs with
  | nil => intro tasks ab r β er ht; simp [assemblerLoop] at ht
  | cons env envs ih =>
    intro tasks ab r β er ht
    simp only [assemblerLoop] at ht
    split at ht
    · dsimp only at ht
      rcases List.mem_append.mp ht with h1 | h2
      · exact assemblerIter_rejectError cfg author btype env tasks ab r β er h1
      · exact ih _ _ r β er h2
    · exact assemblerIter_rejectError cfg author btype env tasks ab r β er ht

/-- C1: in every assembler run, (1) a task is resolved with a batchID only
after a successful upsertBatch of a batch with that id containing the task's
record; (2) after queueing, a task fails only by timeout - and then its
recorded wait strictly exceeds addTimeoutMS - or (3) by failure of the
persistence attempt whose batch included that record (the trace admits no
other rejection events). -/
theorem c1_add_resolves_after_persist (cfg : BPConfig) (author btype : String)
    (envs : List IterEnv) (tasks : List BatchAssemblyTask) (ab : Option DBBatch) :
    okTraceB [] (assemblerLoop cfg author btype envs tasks ab).1 = true ∧
    (∀ r t, BPEvent.rejectTimeout r t ∈ (assemblerLoop cfg author btype envs tasks ab).1 →
      cfg.addTimeoutMS < t) ∧
    (∀ r β er,
      BPEvent.rejectError r β er ∈ (assemblerLoop cfg author btype envs tasks ab).1 →
      r ∈ β.records) :=
  ⟨assembler_okTraceB cfg author btype envs tasks ab [],
   assembler_rejectTimeout cfg author btype envs tasks ab,
   assembler_rejectError cfg author btype envs tasks ab⟩

/-- Witness for C1: the capacity-seal scenario (three records, seal at two)
evaluated concretely. -/
theorem c1_witness :
    okTraceB [] (assemblerLoop c12cfg "a" "t" c12envs c12tasks none).1 = true :=
  (c1_add_resolves_after_persist c12cfg "a" "t" c12envs c12tasks none).1

/-- One assembler iteration never assembles more than `batchMaxRecords`
records into the batch it hands to `database.upsertBatch` (successfully or
not), and it maintains that bound on the assembly slot it leaves behind. -/
theorem assemblerIter_upsert_bound (cfg : BPConfig) (author btype : String)
    (env : IterEnv) (tasks : List BatchAssemblyTask) (ab : Option DBBatch)
    (hab : ∀ β₀, ab = some β₀ → β₀.records.length ≤ cfg.batchMaxRecords) :
    (∀ β, BPEvent.upsertBatch β ∈ (assemblerIter cfg author btype env tasks ab).1 →
      β.records.length ≤ cfg.batchMaxRecords) ∧
    (∀ β er, BPEvent.upsertFail β er ∈ (assemblerIter cfg author btype env tasks ab).1 →
      β.records.length ≤ cfg.batchMaxRecords) ∧
    (∀ β₀, (assemblerIter cfg author btype env tasks ab).2.1 = some β₀ →
      β₀.records.length ≤ cfg.batchMaxRecords) := by
  have hbase : (ab.getD (newBatch author btype env.freshID env.now)).records.length ≤
      cfg.batchMaxRecords := by
    cases ab with
    | none => simp [newBatch]
    | some β₀ => simpa using hab β₀ rfl
  have hch : (((rejectAnyStale cfg env.now tasks).1.take
        (cfg.batchMaxRecords -
          (ab.getD (newBatch author btype env.freshID env.now)).records.length)).map
        (fun x => x.record)).length ≤
      cfg.batchMaxRecords -
        (ab.getD (newBatch author btype env.freshID env.now)).records.length := by
    rw [List.length_map, List.length_take]
    exact Nat.min_le_left _ _
  have hlen : ((ab.getD (newBatch author btype env.freshID env.now)).records ++
        ((rejectAnyStale cfg env.now tasks).1.take
          (cfg.batchMaxRecords -
            (ab.getD (newBatch author btype env.freshID env.now)).records.length)).map
          (fun x => x.record)).length ≤ cfg.batchMaxRecords := by
    rw [List.length_append]
    omega
  simp only [assemblerIter]
  split
  · refine ⟨?_, ?_, ?_⟩
    · intro β hm
      obtain ⟨r', t', heq, _⟩ := rejectAnyStale_events cfg env.now tasks _ hm
      cases heq
    · intro β er hm
      obtain ⟨r', t', heq, _⟩ := rejectAnyStale_events cfg env.now tasks _ hm
      cases heq
    · intro β₀ h
      exact hab β₀ h
  · split
    · refine ⟨?_, ?_, ?_⟩
      · intro β hm
        rcases List.mem_append.mp hm with h1 | h2
        · obtain ⟨r', t', heq, _⟩ := rejectAnyStale_events cfg env.now tasks _ h1
          cases heq
        · rcases List.mem_cons.mp h2 with h3 | h4
          · cases h3
          · rcases List.mem_map.mp h4 with ⟨a, _, heq⟩
            cases heq
      · intro β er hm
        rcases List.mem_append.mp hm with h1 | h2
        · obtain ⟨r', t', heq, _⟩ := rejectAnyStale_events cfg env.now tasks _ h1
          cases heq
        · rcases List.mem_cons.mp h2 with h3 | h4
          · cases h3
            exact hlen
          · rcases List.mem_map.mp h4 with ⟨a, _, heq⟩
            cases heq
      · intro β₀ h
        injection h with h2
        rw [← h2]
        exact hlen
    · split
      · refine ⟨?_, ?_, ?_⟩
        · intro β hm
          rcases List.mem_append.mp hm with h1 | h2
          · obtain ⟨r', t', heq, _⟩ := rejectAnyStale_events cfg env.now tasks _ h1
            cases heq
          · rcases List.mem_cons.mp h2 with h3 | h4
            · cases h3
              exact hlen
            · rcases List.mem_cons.mp h4 with h5 | h6
              · cases h5
              · rcases List.mem_map.mp h6 with ⟨a, _, heq⟩
                cases heq
        · intro β er hm
          rcases List.mem_append.mp hm with h1 | h2
          · obtain ⟨r', t', heq, _⟩ := rejectAnyStale_events cfg env.now tasks _ h1
            cases heq
          · rcases List.mem_cons.mp h2 with h3 | h4
            · cases h3
            · rcases List.mem_cons.mp h4 with h5 | h6
              · cases h5
              · rcases List.mem_map.mp h6 with ⟨a, _, heq⟩
                cases heq
        · intro β₀ h
          simp at h
      · refine ⟨?_, ?_, ?_⟩
        · intro β hm
          rcases List.mem_append.mp hm with h1 | h2
          · obtain ⟨r', t', heq, _⟩ := rejectAnyStale_events cfg env.now tasks _ h1
            cases heq
          · rcases List.mem_cons.mp h2 with h3 | h4
            · cases h3
              exact hlen
            · rcases List.mem_cons.mp h4 with h5 | h6
              · cases h5
              · rcases List.mem_map.mp h6 with ⟨a, _, heq⟩
                cases heq
        · intro β er hm
          rcases List.mem_append.mp hm with h1 | h2
          · obtain ⟨r', t', heq, _⟩ := rejectAnyStale_events cfg env.now tasks _ h1
            cases heq
          · rcases List.mem_cons.mp h2 with h3 | h4
            · cases h3
            · rcases List.mem_cons.mp h4 with h5 | h6
              · cases h5
              · rcases List.mem_map.mp h6 with ⟨a, _, heq⟩
                cases heq
        · intro β₀ h
          injection h with h2
          rw [← h2]
          exact hlen

/-- Main induction for C2: the record-count bound holds at every upsert
attempt of a full assembler run. -/
theorem assembler_upsert_bound (cfg : BPConfig) (author btype : String) :
    ∀ (envs : List IterEnv) (tasks : List BatchAssemblyTask) (ab : Option DBBatch),
      (∀ β₀, ab = some β₀ → β₀.records.length ≤ cfg.batchMaxRecords) →
      (∀ β, BPEvent.upsertBatch β ∈ (assemblerLoop cfg author btype envs tasks ab).1 →
        β.records.length ≤ cfg.batchMaxRecords) ∧
      (∀ β er,
        BPEvent.upsertFail β er ∈ (assemblerLoop cfg author btype envs tasks ab).1 →
        β.records.length ≤ cfg.batchMaxRecords) := by
  intro envs
  induction envs with
  | nil =>
    intro tasks ab hab
    constructor
    · intro β hm; simp [assemblerLoop] at hm
    · intro β er hm; simp [assemblerLoop] at hm
  | cons env envs ih =>
    intro tasks ab hab
    have hiter := assemblerIter_upsert_bound cfg author btype env tasks ab hab
    simp only [assemblerLoop]
    split
    · dsimp only
      have hih := ih (assemblerIter cfg author btype env tasks ab).2.2.1
        (assemblerIter cfg author btype env tasks ab).2.1 hiter.2.2
      constructor
      · intro β hm
        rcases List.mem_append.mp hm with h1 | h2
        · exact hiter.1 β h1
        · exact hih.1 β h2
      · intro β er hm
        rcases List.mem_append.mp hm with h1 | h2
        · exact hiter.2.1 β er h1
        · exact hih.2 β er h2
    · exact ⟨hiter.1, hiter.2.1⟩

/-- C2: starting from an empty (or in-bounds) assembly slot, each iteration
takes at most `batchMaxRecords - |records|` tasks off the front of the
queue, so every batch handed to `database.upsertBatch` - on the successful
and on the failing attempts alike - satisfies
|records| <= batchMaxRecords. -/
theorem c2_batch_size_invariant (cfg : BPConfig) (author btype : String)
    (envs : List IterEnv) (tasks : List BatchAssemblyTask) (ab : Option DBBatch)
    (hab : ∀ β₀, ab = some β₀ → β₀.records.length ≤ cfg.batchMaxRecords) :
    (∀ β, BPEvent.upsertBatch β ∈ (assemblerLoop cfg author btype envs tasks ab).1 →
      β.records.length ≤ cfg.batchMaxRecords) ∧
    (∀ β er,
      BPEvent.upsertFail β er ∈ (assemblerLoop cfg author btype envs tasks ab).1 →
      β.records.length ≤ cfg.batchMaxRecords) :=
  assembler_upsert_bound cfg author btype envs tasks ab hab

/-- Witness for C2: the first persisted batch of the capacity-seal scenario
holds exactly the maximum of two records. -/
theorem c2_witness : c12batch1.records.length ≤ c12cfg.batchMaxRecords :=
  (c2_batch_size_invariant c12cfg "a" "t" c12envs c12tasks none
    (by intro β₀ h; cases h)).1 c12batch1 (by decide)
